import Mathlib

/-!
Verification of the ChainQuest Idle multiplayer transport and anti-cheat layer.

The definitions below are a shallow embedding of `src/security/mod.rs` and
`src/multiplayer/network.rs`:

* `u32`/`u64` machine integers become `Nat` (all quantities involved stay far
  below `2^32`, so wrap-around never matters for the proved statements);
* the `f32` fields `actions_per_second` / `max_actions_per_second` /
  `max_resource_gain_per_action` and resource amounts become `ℚ`: every value
  the code can reach on these fields is an integer far below `2^24`
  (the counter is only ever set to `0.0`, set to `1.0`, or incremented by
  `1.0`), hence exactly representable in `f32`, and `f32` comparison on such
  values agrees with the rational comparison;
* timestamps from `SystemTime` (whole seconds, `u64`) become `Nat`, where
  `Nat` subtraction coincides with Rust's `saturating_sub`; `Instant` values
  become `ℚ` with an explicit saturating `durationSince`;
* the global `HashMap<u32, _>` state is passed explicitly: the per-player
  validators act on `Option PlayerActionHistory` (`none` = untracked player,
  matching `entry(..).or_insert_with` resp. `get_mut` semantics), the
  cleanup system acts on an association list;
* the third-party gzip codec (`flate2`) is abstracted as a structure
  `GzipCodec` bundling the two pure functions `compress_data` /
  `decompress_data` from the source together with the three facts the gzip
  format guarantees: output starts with the magic bytes `1f 8b`, output is
  longer than 4 bytes (a gzip stream has a 10-byte header and 8-byte
  trailer), and decompression inverts compression.
-/

namespace ChainQuest

/-! ## Security module (src/security/mod.rs) -/

/-- Per-player action history (`PlayerActionHistory`, security/mod.rs:17-23). -/
structure PlayerActionHistory where
  last_resource_collection : Nat
  last_quest_completion : Nat
  last_level_up : Nat
  actions_per_second : ℚ
  suspicious_activity_count : Nat
deriving DecidableEq, Repr

/-- Anti-cheat policy (`ValidationConfig`, security/mod.rs:26-32). -/
structure ValidationConfig where
  max_actions_per_second : ℚ
  min_time_between_quests : Nat
  max_resource_gain_per_action : ℚ
  max_level_jumps : Nat
  suspicious_threshold : Nat
deriving DecidableEq, Repr

/-- `ValidationConfig::default` (security/mod.rs:34-44). -/
def ValidationConfig.default : ValidationConfig where
  max_actions_per_second := 10
  min_time_between_quests := 5
  max_resource_gain_per_action := 1000
  max_level_jumps := 5
  suspicious_threshold := 10

/-- Outcome of a validation gate (`ValidationResult`, security/mod.rs:188-194). -/
inductive ValidationResult where
  | Approved : ValidationResult
  | RateLimited : ValidationResult
  | Flagged : ValidationResult
  | Rejected : String → ValidationResult
deriving DecidableEq, Repr

/-- The all-zero history inserted by `entry(player_id).or_insert_with(..)`
(security/mod.rs:64-70). -/
def freshHistory : PlayerActionHistory where
  last_resource_collection := 0
  last_quest_completion := 0
  last_level_up := 0
  actions_per_second := 0
  suspicious_activity_count := 0

/-- The decaying actions-per-second counter update (security/mod.rs:80-85):
increment when strictly less than one second has passed since the last
collection (`time_since_last = current_time.saturating_sub(last)`), else
restart at 1. -/
def apsAfter (current_time : Nat) (h : PlayerActionHistory) : ℚ :=
  if current_time - h.last_resource_collection < 1 then
    h.actions_per_second + 1
  else 1

/-- `SecurityManager::validate_resource_collection` (security/mod.rs:57-102),
acting on the calling player's map entry (`none` = not yet tracked; the code
inserts the fresh history before proceeding, so the result state is always
present). -/
def validate_resource_collection (cfg : ValidationConfig) (current_time : Nat)
    (amount : ℚ) (h0 : Option PlayerActionHistory) :
    ValidationResult × PlayerActionHistory :=
  let h := h0.getD freshHistory
  -- Check for excessive resource gain
  if cfg.max_resource_gain_per_action < amount then
    (ValidationResult.Rejected "Excessive resource gain detected",
     { h with suspicious_activity_count := h.suspicious_activity_count + 1 })
  else
    -- Check action rate
    let aps : ℚ := apsAfter current_time h
    let h1 := { h with actions_per_second := aps }
    if cfg.max_actions_per_second < aps then
      (ValidationResult.RateLimited,
       { h1 with suspicious_activity_count := h1.suspicious_activity_count + 1 })
    else
      let h2 := { h1 with last_resource_collection := current_time }
      -- Check suspicious activity threshold
      if cfg.suspicious_threshold ≤ h2.suspicious_activity_count then
        (ValidationResult.Flagged, h2)
      else
        (ValidationResult.Approved, h2)

/-- `SecurityManager::validate_quest_completion` (security/mod.rs:105-132).
The `quest_id` argument only feeds a log line in the source; it is kept for
signature fidelity. -/
def validate_quest_completion (cfg : ValidationConfig) (current_time : Nat)
    (quest_id : Nat) (h0 : Option PlayerActionHistory) :
    ValidationResult × PlayerActionHistory :=
  let _ := quest_id
  let h := h0.getD freshHistory
  if current_time - h.last_quest_completion < cfg.min_time_between_quests then
    (ValidationResult.Rejected "Quest completion too frequent",
     { h with suspicious_activity_count := h.suspicious_activity_count + 1 })
  else
    (ValidationResult.Approved, { h with last_quest_completion := current_time })

/-- `SecurityManager::validate_level_up` (security/mod.rs:135-158).
Unlike the two gates above, this one uses `actions.get_mut(&player_id)`
without inserting: for an untracked player (`none`) neither branch creates a
history entry. -/
def validate_level_up (cfg : ValidationConfig) (current_time : Nat)
    (old_level new_level : Nat) (h0 : Option PlayerActionHistory) :
    ValidationResult × Option PlayerActionHistory :=
  -- level_jump = new_level.saturating_sub(old_level)
  let level_jump := new_level - old_level
  if cfg.max_level_jumps < level_jump then
    (ValidationResult.Rejected "Suspicious level progression",
     h0.map fun h =>
       { h with suspicious_activity_count := h.suspicious_activity_count + 5 })
  else
    (ValidationResult.Approved,
     h0.map fun h => { h with last_level_up := current_time })

/-- Most recent of the three per-action timestamps
(security/mod.rs:231-233). -/
def lastActivity (h : PlayerActionHistory) : Nat :=
  (h.last_resource_collection.max h.last_quest_completion).max h.last_level_up

/-- The eviction pass of the `security_cleanup` system
(security/mod.rs:230-236): `retain` keeps a history iff
`current_time.saturating_sub(last_activity) < 3600`. -/
def security_cleanup (current_time : Nat)
    (m : List (Nat × PlayerActionHistory)) : List (Nat × PlayerActionHistory) :=
  m.filter fun p => current_time - lastActivity p.2 < 3600

/-! ## Network module (src/multiplayer/network.rs) -/

/-- One byte of a wire payload. -/
abbrev Byte := Fin 256

/-- The gzip magic header bytes checked at network.rs:149. -/
def gzipMagic : List Byte := [0x1f, 0x8b]

/-- Per-peer rate-limit window (`RateLimit`, network.rs:21-26).
`Instant` values are modelled as rational time coordinates. -/
structure RateLimit where
  packets_sent : Nat
  last_reset : ℚ
  max_packets_per_second : Nat
deriving DecidableEq, Repr

/-- `Instant::duration_since` saturates to a zero duration when the other
instant is later. -/
def durationSince (now earlier : ℚ) : ℚ := max (now - earlier) 0

/-- The tracked-peer body of `NetworkManager::check_rate_limit`
(network.rs:180-193): reset the window if at least one second has elapsed,
then reject without counting when the count has reached the cap, otherwise
count and accept. -/
def checkRateLimitTracked (now : ℚ) (rl : RateLimit) : Bool × RateLimit :=
  -- Reset counter if more than 1 second has passed
  let rl1 : RateLimit :=
    if 1 ≤ durationSince now rl.last_reset then
      ⟨0, now, rl.max_packets_per_second⟩
    else rl
  if rl1.max_packets_per_second ≤ rl1.packets_sent then
    (false, rl1)
  else
    (true, ⟨rl1.packets_sent + 1, rl1.last_reset, rl1.max_packets_per_second⟩)

/-- A sequence of send attempts at the given instants against one peer's
rate-limit state; returns the acceptance verdicts in order together with the
final state. -/
def sendSeq (ts : List ℚ) (rl : RateLimit) : List Bool × RateLimit :=
  match ts with
  | [] => ([], rl)
  | t :: rest =>
    let r1 := checkRateLimitTracked t rl
    let r2 := sendSeq rest r1.2
    (r1.1 :: r2.1, r2.2)

/-- Cumulative transport counters (`NetworkStats`, network.rs:28-36).
The `f32` diagnostic field `compression_ratio` is omitted: no claim touches
it and it is a floating-point quotient used only for logging. -/
structure NetworkStats where
  packets_sent : Nat
  packets_received : Nat
  bytes_sent : Nat
  bytes_received : Nat
  rate_limit_violations : Nat
deriving DecidableEq, Repr

/-- The transport state of `NetworkManager` (network.rs:13-19): the ENet
host is modelled by the list of peer ids it can currently reach (`none` =
not initialized), and the `HashMap<u32, RateLimit>` by an association
list. -/
structure NetworkManager where
  host : Option (List Nat)
  peer_rate_limits : List (Nat × RateLimit)
  compression_enabled : Bool
  stats : NetworkStats
deriving DecidableEq, Repr

/-- `HashMap::get` on the association list. -/
def lookupPeer (peer : Nat) : List (Nat × RateLimit) → Option RateLimit
  | [] => none
  | (p, rl) :: rest => if p = peer then some rl else lookupPeer peer rest

/-- In-place update of a tracked peer's entry (`get_mut` semantics). -/
def updatePeer (peer : Nat) (rl : RateLimit) :
    List (Nat × RateLimit) → List (Nat × RateLimit)
  | [] => []
  | (p, rl0) :: rest =>
    if p = peer then (p, rl) :: rest else (p, rl0) :: updatePeer peer rl rest

/-- `NetworkManager::check_rate_limit` (network.rs:177-198): a peer without
rate-limit tracking is always accepted and no entry is created for it. -/
def NetworkManager.check_rate_limit (nm : NetworkManager) (now : ℚ)
    (peer : Nat) : Bool × NetworkManager :=
  match lookupPeer peer nm.peer_rate_limits with
  | some rl =>
    let r := checkRateLimitTracked now rl
    (r.1, { nm with peer_rate_limits := updatePeer peer r.2 nm.peer_rate_limits })
  | none => (true, nm)

/-- The third-party gzip codec behind `NetworkManager::compress_data` /
`decompress_data` (network.rs:201-212, `flate2`), abstracted by the pure
byte transforms together with the facts the gzip format guarantees: every
stream starts with the magic bytes `1f 8b`, is longer than 4 bytes (10-byte
header plus 8-byte trailer), and decompression inverts compression. -/
structure GzipCodec where
  compress_data : List Byte → List Byte
  decompress_data : List Byte → Except String (List Byte)
  compress_magic : ∀ x, (compress_data x).take 2 = gzipMagic
  compress_len : ∀ x, 4 < (compress_data x).length
  decompress_compress : ∀ x, decompress_data (compress_data x) = Except.ok x

/-- The send-side payload transform of `send_packet` (network.rs:72-76):
compress only when compression is enabled and the payload is longer than
100 bytes. -/
def compressForSend (G : GzipCodec) (enabled : Bool) (data : List Byte) :
    List Byte :=
  if enabled ∧ 100 < data.length then G.compress_data data else data

/-- The receive-side payload transform of `process_events`
(network.rs:147-162): attempt decompression only when compression is
enabled, the payload is longer than 4 bytes and starts with the gzip magic
header; on decompression failure fall back to the original bytes. -/
def decompressOnReceive (G : GzipCodec) (enabled : Bool) (data : List Byte) :
    List Byte :=
  if enabled ∧ 4 < data.length then
    if data.take 2 = gzipMagic then
      match G.decompress_data data with
      | Except.ok d => d
      | Except.error _ => data
    else data
  else data

/-- `NetworkManager::send_packet` (network.rs:65-108). `Packet::new`
(an allocation in ENet) is modelled as always succeeding; `host.peer` is
membership in the modelled peer list. The `reliable` flag only selects the
ENet packet mode and does not influence any modelled observable. -/
def send_packet (G : GzipCodec) (nm : NetworkManager) (now : ℚ) (peer : Nat)
    (data : List Byte) (reliable : Bool) : Except String Unit × NetworkManager :=
  let _ := reliable
  -- Check rate limit
  let c := NetworkManager.check_rate_limit nm now peer
  if c.1 = false then
    (Except.error "Rate limit exceeded",
     { c.2 with stats :=
        { c.2.stats with
            rate_limit_violations := c.2.stats.rate_limit_violations + 1 } })
  else
    let nm1 := c.2
    let processed := compressForSend G nm1.compression_enabled data
    match nm1.host with
    | some peers =>
      if peer ∈ peers then
        (Except.ok (),
         { nm1 with stats :=
            { nm1.stats with
                packets_sent := nm1.stats.packets_sent + 1,
                bytes_sent := nm1.stats.bytes_sent + processed.length } })
      else
        (Except.error "Peer not found", nm1)
    | none => (Except.error "Network not initialized", nm1)

/-- A concrete instance of the `GzipCodec` interface (header carrying the
magic bytes followed by three reserved bytes, then the raw payload), used to
instantiate universally quantified statements and to witness that the
interface alone cannot force the receive-side heuristic to be injective. -/
def toyGzip : GzipCodec where
  compress_data x := 0x1f :: 0x8b :: 0 :: 0 :: 0 :: x
  decompress_data x :=
    if x.take 5 = [0x1f, 0x8b, 0, 0, 0] then Except.ok (x.drop 5)
    else Except.error "invalid stream"
  compress_magic x := rfl
  compress_len x := by simp
  decompress_compress x := by simp

/-! ## Helper lemmas: branch characterizations of the resource gate -/

/-- Branch equation: excessive amount (security/mod.rs:73-77). -/
lemma vrc_rejected_eq (cfg : ValidationConfig) (now : Nat) (amount : ℚ)
    (h0 : Option PlayerActionHistory)
    (hamt : cfg.max_resource_gain_per_action < amount) :
    validate_resource_collection cfg now amount h0 =
      (ValidationResult.Rejected "Excessive resource gain detected",
       { h0.getD freshHistory with
           suspicious_activity_count :=
             (h0.getD freshHistory).suspicious_activity_count + 1 }) := by
  simp [validate_resource_collection, hamt]

/-- Branch equation: action rate exceeded (security/mod.rs:87-91). -/
lemma vrc_ratelimited_eq (cfg : ValidationConfig) (now : Nat) (amount : ℚ)
    (h0 : Option PlayerActionHistory)
    (hamt : ¬ cfg.max_resource_gain_per_action < amount)
    (hrate : cfg.max_actions_per_second < apsAfter now (h0.getD freshHistory)) :
    validate_resource_collection cfg now amount h0 =
      (ValidationResult.RateLimited,
       { h0.getD freshHistory with
           actions_per_second := apsAfter now (h0.getD freshHistory),
           suspicious_activity_count :=
             (h0.getD freshHistory).suspicious_activity_count + 1 }) := by
  simp [validate_resource_collection, hamt, hrate]

/-- Branch equation: both checks passed, the outcome is decided by the
suspicion threshold (security/mod.rs:93-101). -/
lemma vrc_pass_eq (cfg : ValidationConfig) (now : Nat) (amount : ℚ)
    (h0 : Option PlayerActionHistory)
    (hamt : ¬ cfg.max_resource_gain_per_action < amount)
    (hrate : ¬ cfg.max_actions_per_second < apsAfter now (h0.getD freshHistory)) :
    validate_resource_collection cfg now amount h0 =
      (if cfg.suspicious_threshold ≤ (h0.getD freshHistory).suspicious_activity_count
        then ValidationResult.Flagged else ValidationResult.Approved,
       { h0.getD freshHistory with
           actions_per_second := apsAfter now (h0.getD freshHistory),
           last_resource_collection := now }) := by
  by_cases hs :
      cfg.suspicious_threshold ≤ (h0.getD freshHistory).suspicious_activity_count <;>
    simp [validate_resource_collection, hamt, hrate, hs]

/-- The decaying counter of a player who has never collected resources is 1
after any first collection. -/
lemma apsAfter_fresh (now : Nat) : apsAfter now freshHistory = 1 := by
  simp [apsAfter, freshHistory]

/-- After a RateLimited outcome the stored counter value is the one just
computed; since the collection timestamp was not advanced, recomputing the
counter at the same instant exceeds the cap again. -/
lemma apsAfter_still_exceeds (cfg : ValidationConfig) (now : Nat)
    (h : PlayerActionHistory) (s : Nat)
    (hrate : cfg.max_actions_per_second < apsAfter now h) :
    cfg.max_actions_per_second <
      apsAfter now
        { h with
            actions_per_second := apsAfter now h
            suspicious_activity_count := s } := by
  by_cases hc : now - h.last_resource_collection < 1 <;>
    simp only [apsAfter, hc, if_true, if_false, ite_true, ite_false] at hrate ⊢ <;>
    linarith

/-! ## Helper lemmas: the per-peer rate-limit window -/

/-- Inside the current window (strictly less than one second since the last
reset) the attempt is rejected without counting iff the count has reached
the cap. -/
lemma checkRateLimitTracked_in_window (mx k : ℕ) (t0 t : ℚ)
    (_h1 : t0 ≤ t) (h2 : t < t0 + 1) :
    checkRateLimitTracked t ⟨k, t0, mx⟩ =
      if mx ≤ k then (false, ⟨k, t0, mx⟩) else (true, ⟨k + 1, t0, mx⟩) := by
  have hd : ¬ 1 ≤ durationSince t t0 :=
    not_le.mpr (max_lt_iff.mpr ⟨by linarith, by norm_num⟩)
  simp [checkRateLimitTracked, hd]

/-- Once at least one second has elapsed the window restarts: the count is
reset to 0 before the evaluation, so the attempt is accepted (and counted as
the first of the new window) unless the cap itself is 0. -/
lemma checkRateLimitTracked_reset (mx k : ℕ) (t0 t : ℚ) (h : t0 + 1 ≤ t) :
    checkRateLimitTracked t ⟨k, t0, mx⟩ =
      if mx = 0 then (false, ⟨0, t, mx⟩) else (true, ⟨1, t, mx⟩) := by
  have hd : 1 ≤ durationSince t t0 := le_max_of_le_left (by linarith)
  by_cases hm : mx = 0 <;>
    simp [checkRateLimitTracked, hd, hm, Nat.pos_of_ne_zero]

/-- A saturated window rejects every further in-window attempt and never
advances the count. -/
lemma sendSeq_saturated (mx : ℕ) (t0 : ℚ) (ts : List ℚ)
    (hts : ∀ t ∈ ts, t0 ≤ t ∧ t < t0 + 1) :
    sendSeq ts ⟨mx, t0, mx⟩ = (List.replicate ts.length false, ⟨mx, t0, mx⟩) := by
  induction ts with
  | nil => simp [sendSeq]
  | cons t ts ih =>
    have ht := hts t (List.mem_cons_self t ts)
    have hstep := checkRateLimitTracked_in_window mx mx t0 t ht.1 ht.2
    rw [if_pos le_rfl] at hstep
    simp [sendSeq, hstep, List.replicate_succ,
      ih fun u hu => hts u (List.mem_cons_of_mem t hu)]

lemma map_range'_decide_ge (mx s n : ℕ) (h : mx ≤ s) :
    (List.range' s n).map (fun i => decide (i < mx)) = List.replicate n false := by
  induction n generalizing s with
  | zero => simp
  | succ n ih =>
    rw [List.range'_succ, List.map_cons, ih (s + 1) (by omega)]
    simp [Nat.not_lt.mpr h, List.replicate_succ]

lemma map_range'_decide_lt (s n : ℕ) :
    (List.range' s n).map (fun i => decide (i < s + n)) = List.replicate n true := by
  induction n generalizing s with
  | zero => simp
  | succ n ih =>
    rw [List.range'_succ, List.map_cons]
    have h1 : (List.range' (s + 1) n).map (fun i => decide (i < s + (n + 1))) =
        (List.range' (s + 1) n).map (fun i => decide (i < (s + 1) + n)) := by
      have : s + (n + 1) = (s + 1) + n := by omega
      rw [this]
    rw [h1, ih (s + 1)]
    simp [Nat.lt_add_of_pos_right, List.replicate_succ]

/-- In-window verdicts from an intermediate count `k`: the next `mx - k`
attempts are accepted, everything after is rejected, and the final count is
capped at `mx` with the window start untouched. -/
lemma sendSeq_window (mx : ℕ) (t0 : ℚ) (ts : List ℚ) (k : ℕ) (hk : k ≤ mx)
    (hts : ∀ t ∈ ts, t0 ≤ t ∧ t < t0 + 1) :
    sendSeq ts ⟨k, t0, mx⟩ =
      ((List.range' k ts.length).map (fun i => decide (i < mx)),
       ⟨min (k + ts.length) mx, t0, mx⟩) := by
  induction ts generalizing k with
  | nil => simp [sendSeq, Nat.min_eq_left hk]
  | cons t ts ih =>
    have ht := hts t (List.mem_cons_self t ts)
    have hts' : ∀ u ∈ ts, t0 ≤ u ∧ u < t0 + 1 :=
      fun u hu => hts u (List.mem_cons_of_mem t hu)
    have hstep := checkRateLimitTracked_in_window mx k t0 t ht.1 ht.2
    rcases Nat.lt_or_ge k mx with hkm | hkm
    · rw [if_neg (Nat.not_le.mpr hkm)] at hstep
      rw [List.length_cons, List.range'_succ, List.map_cons]
      simp only [sendSeq, hstep]
      rw [ih (k + 1) hkm hts']
      have hmin : min (k + 1 + ts.length) mx = min (k + (ts.length + 1)) mx := by
        omega
      simp [hkm, hmin]
    · have hke : k = mx := le_antisymm hk hkm
      subst hke
      rw [if_pos le_rfl] at hstep
      simp only [sendSeq, hstep]
      rw [sendSeq_saturated k t0 ts hts',
        List.length_cons, map_range'_decide_ge k k (ts.length + 1) le_rfl]
      simp [List.replicate_succ, Nat.min_eq_right (by omega : k ≤ k + (ts.length + 1))]

/-! ## Claims -/

/-- Claim C7: any amount strictly above `max_resource_gain_per_action` is
Rejected with exactly +1 suspicion (for every player, tracked or fresh, and
every prior state), and a single 500.0 collection by a fresh player is
Approved under the default configuration. -/
theorem c7_excessive_gain_rejected (cfg : ValidationConfig) (now : Nat)
    (amount : ℚ) (h0 : Option PlayerActionHistory) :
    (cfg.max_resource_gain_per_action < amount →
      validate_resource_collection cfg now amount h0 =
        (ValidationResult.Rejected "Excessive resource gain detected",
         { h0.getD freshHistory with
             suspicious_activity_count :=
               (h0.getD freshHistory).suspicious_activity_count + 1 })) ∧
    (validate_resource_collection ValidationConfig.default now 500 none).1 =
      ValidationResult.Approved := by
  refine ⟨fun hgt => vrc_rejected_eq cfg now amount h0 hgt, ?_⟩
  have hpass := vrc_pass_eq ValidationConfig.default now 500 none
    (by norm_num [ValidationConfig.default])
    (by simp [ValidationConfig.default, apsAfter_fresh])
  rw [hpass]
  simp [ValidationConfig.default, freshHistory]

/-- Claim C7 witness: a concrete 1001.0 collection against the default
limit 1000.0 is Rejected and raises suspicion from 0 to 1. -/
theorem c7_witness :
    validate_resource_collection ValidationConfig.default 42 1001 none =
      (ValidationResult.Rejected "Excessive resource gain detected",
       { freshHistory with suspicious_activity_count := 1 }) ∧
    (validate_resource_collection ValidationConfig.default 42 500 none).1 =
      ValidationResult.Approved := by
  have h := c7_excessive_gain_rejected ValidationConfig.default 42 1001 none
  refine ⟨?_, (c7_excessive_gain_rejected ValidationConfig.default 42 500 none).2⟩
  have h1 := h.1 (by norm_num [ValidationConfig.default])
  simpa [freshHistory] using h1

/-- Claim C8: a quest completion strictly less than
`min_time_between_quests` seconds after the player's last one is Rejected
with +1 suspicion and the stored completion timestamp is not touched; once
the minimum time has elapsed the completion is Approved and the timestamp is
set to the current time. -/
theorem c8_quest_timing (cfg : ValidationConfig) (now qid : Nat)
    (h0 : Option PlayerActionHistory) :
    (now - (h0.getD freshHistory).last_quest_completion <
        cfg.min_time_between_quests →
      validate_quest_completion cfg now qid h0 =
        (ValidationResult.Rejected "Quest completion too frequent",
         { h0.getD freshHistory with
             suspicious_activity_count :=
               (h0.getD freshHistory).suspicious_activity_count + 1 })) ∧
    (cfg.min_time_between_quests ≤
        now - (h0.getD freshHistory).last_quest_completion →
      validate_quest_completion cfg now qid h0 =
        (ValidationResult.Approved,
         { h0.getD freshHistory with last_quest_completion := now })) := by
  constructor
  · intro hlt
    simp [validate_quest_completion, hlt]
  · intro hge
    simp [validate_quest_completion, Nat.not_lt.mpr hge]

/-- Claim C8 witness: with the default 5-second minimum, a second completion
2 seconds after the first is Rejected and leaves the stored timestamp at
100, while one 5 seconds later is Approved and moves it to 105. -/
theorem c8_witness :
    validate_quest_completion ValidationConfig.default 102 7
        (some { freshHistory with last_quest_completion := 100 }) =
      (ValidationResult.Rejected "Quest completion too frequent",
       { freshHistory with
           last_quest_completion := 100
           suspicious_activity_count := 1 }) ∧
    validate_quest_completion ValidationConfig.default 105 7
        (some { freshHistory with last_quest_completion := 100 }) =
      (ValidationResult.Approved,
       { freshHistory with last_quest_completion := 105 }) := by
  constructor
  · have h := (c8_quest_timing ValidationConfig.default 102 7
      (some { freshHistory with last_quest_completion := 100 })).1
      (by norm_num [freshHistory, ValidationConfig.default])
    simpa [freshHistory] using h
  · have h := (c8_quest_timing ValidationConfig.default 105 7
      (some { freshHistory with last_quest_completion := 100 })).2
      (by norm_num [freshHistory, ValidationConfig.default])
    simpa [freshHistory] using h

/-- Claim C5, counterexample to the claim as stated: for a player that is
not yet tracked, `validate_level_up(p, 1, 10)` against the default limit 5
is Rejected but creates no history entry at all, so nobody's
`suspicious_activity_count` is raised by 5 (the claim asserts the penalty
for every player, "previously tracked or not"). -/
theorem c5_untracked_no_penalty_cex :
    (validate_level_up ValidationConfig.default 50 1 10 none).1 =
      ValidationResult.Rejected "Suspicious level progression" ∧
    (validate_level_up ValidationConfig.default 50 1 10 none).2 = none := by
  constructor <;> rfl

/-- Claim C5, amended: a level jump above `max_level_jumps` is Rejected, and
only when the player already has a history entry is its suspicion raised by
exactly 5 (an untracked player stays untracked and unpenalized); otherwise
the call is Approved and only a tracked player's `last_level_up` timestamp
is updated. -/
theorem c5_level_up_behavior (cfg : ValidationConfig)
    (now old_level new_level : Nat) (h : PlayerActionHistory) :
    (cfg.max_level_jumps < new_level - old_level →
      validate_level_up cfg now old_level new_level none =
        (ValidationResult.Rejected "Suspicious level progression", none) ∧
      validate_level_up cfg now old_level new_level (some h) =
        (ValidationResult.Rejected "Suspicious level progression",
         some { h with suspicious_activity_count :=
                  h.suspicious_activity_count + 5 })) ∧
    (new_level - old_level ≤ cfg.max_level_jumps →
      validate_level_up cfg now old_level new_level none =
        (ValidationResult.Approved, none) ∧
      validate_level_up cfg now old_level new_level (some h) =
        (ValidationResult.Approved, some { h with last_level_up := now })) := by
  constructor
  · intro hj
    constructor <;> simp [validate_level_up, hj]
  · intro hle
    constructor <;> simp [validate_level_up, Nat.not_lt.mpr hle]

/-- Claim C5 witness: under the default limit 5, the jump 1 → 10 is
Rejected and a tracked player's suspicion goes from 0 to 5, while the jump
3 → 4 is Approved and moves the tracked player's `last_level_up` to 50. -/
theorem c5_witness :
    validate_level_up ValidationConfig.default 50 1 10 (some freshHistory) =
      (ValidationResult.Rejected "Suspicious level progression",
       some { freshHistory with suspicious_activity_count := 5 }) ∧
    validate_level_up ValidationConfig.default 50 3 4 (some freshHistory) =
      (ValidationResult.Approved,
       some { freshHistory with last_level_up := 50 }) := by
  constructor
  · have h := ((c5_level_up_behavior ValidationConfig.default 50 1 10
      freshHistory).1 (by norm_num [ValidationConfig.default])).2
    simpa [freshHistory] using h
  · have h := ((c5_level_up_behavior ValidationConfig.default 50 3 4
      freshHistory).2 (by norm_num [ValidationConfig.default])).2
    simpa [freshHistory] using h

/-- Claim C6, counterexample to the claim as stated: a history whose most
recent activity lies exactly 3600 seconds in the past is not "more than 1
hour (3600 s) before now", yet the cleanup pass evicts it (the source keeps
an entry only when `saturating_sub < 3600`). -/
theorem c6_boundary_cex :
    security_cleanup 3700
        [(1, { freshHistory with last_resource_collection := 100 })] = [] ∧
    ¬ 3600 <
      3700 - lastActivity { freshHistory with last_resource_collection := 100 } := by
  constructor
  · rfl
  · decide

/-- Claim C6, amended: `cleanup(now)` evicts exactly those histories whose
most recent timestamp is at least 1 hour (3600 s, boundary included) before
now, and retains all others; in particular a history inactive for 3601 s is
removed and one inactive for 3599 s is retained. -/
theorem c6_cleanup_characterization (now : Nat)
    (m : List (Nat × PlayerActionHistory)) (pid : Nat)
    (h : PlayerActionHistory) :
    ((pid, h) ∈ security_cleanup now m ↔
      (pid, h) ∈ m ∧ now - lastActivity h < 3600) ∧
    security_cleanup 3701
        [(1, { freshHistory with last_resource_collection := 100 })] = [] ∧
    security_cleanup 3699
        [(1, { freshHistory with last_resource_collection := 100 })] =
      [(1, { freshHistory with last_resource_collection := 100 })] := by
  refine ⟨?_, rfl, rfl⟩
  simp [security_cleanup, List.mem_filter]

/-- Claim C9: whenever the resource gate returns RateLimited, the player's
suspicion grows by exactly 1, `last_resource_collection` is left unchanged
and the decaying counter keeps the just-computed (not reset) value, which
still exceeds `max_actions_per_second`; consequently an immediate repeat of
the same call is RateLimited again and pushes suspicion to +2. -/
theorem c9_ratelimited_frame (cfg : ValidationConfig) (now : Nat)
    (amount : ℚ) (h0 : Option PlayerActionHistory)
    (hr : (validate_resource_collection cfg now amount h0).1 =
      ValidationResult.RateLimited) :
    (validate_resource_collection cfg now amount h0).2.last_resource_collection =
      (h0.getD freshHistory).last_resource_collection ∧
    (validate_resource_collection cfg now amount h0).2.suspicious_activity_count =
      (h0.getD freshHistory).suspicious_activity_count + 1 ∧
    (validate_resource_collection cfg now amount h0).2.actions_per_second =
      apsAfter now (h0.getD freshHistory) ∧
    cfg.max_actions_per_second <
      (validate_resource_collection cfg now amount h0).2.actions_per_second ∧
    (validate_resource_collection cfg now amount
        (some (validate_resource_collection cfg now amount h0).2)).1 =
      ValidationResult.RateLimited ∧
    (validate_resource_collection cfg now amount
        (some (validate_resource_collection cfg now amount h0).2)).2.suspicious_activity_count =
      (h0.getD freshHistory).suspicious_activity_count + 2 := by
  by_cases hamt : cfg.max_resource_gain_per_action < amount
  · rw [vrc_rejected_eq cfg now amount h0 hamt] at hr
    simp at hr
  by_cases hrate : cfg.max_actions_per_second < apsAfter now (h0.getD freshHistory)
  · have heq := vrc_ratelimited_eq cfg now amount h0 hamt hrate
    have hrate2 := apsAfter_still_exceeds cfg now (h0.getD freshHistory)
      ((h0.getD freshHistory).suspicious_activity_count + 1) hrate
    have heq2 := vrc_ratelimited_eq cfg now amount
      (some { h0.getD freshHistory with
                actions_per_second := apsAfter now (h0.getD freshHistory)
                suspicious_activity_count :=
                  (h0.getD freshHistory).suspicious_activity_count + 1 })
      hamt (by simpa using hrate2)
    rw [heq]
    refine ⟨rfl, rfl, rfl, hrate, ?_, ?_⟩ <;> simp [heq2]
  · rw [vrc_pass_eq cfg now amount h0 hamt hrate] at hr
    by_cases hs :
        cfg.suspicious_threshold ≤
          (h0.getD freshHistory).suspicious_activity_count <;>
      simp [hs] at hr

/-- Claim C9 witness: a player whose counter sits at the cap 10 and who
collects again within the same second is RateLimited; the timestamp stays
at 5, suspicion goes 0 → 1, the counter keeps the value 11, and the
immediate repeat is RateLimited with suspicion 2. -/
theorem c9_witness :
    (validate_resource_collection ValidationConfig.default 5 1
        (some ⟨5, 0, 0, 10, 0⟩)).2.last_resource_collection = 5 ∧
    (validate_resource_collection ValidationConfig.default 5 1
        (some ⟨5, 0, 0, 10, 0⟩)).2.suspicious_activity_count = 1 ∧
    (validate_resource_collection ValidationConfig.default 5 1
        (some ⟨5, 0, 0, 10, 0⟩)).2.actions_per_second = 11 ∧
    (validate_resource_collection ValidationConfig.default 5 1
        (some (validate_resource_collection ValidationConfig.default 5 1
          (some ⟨5, 0, 0, 10, 0⟩)).2)).1 = ValidationResult.RateLimited ∧
    (validate_resource_collection ValidationConfig.default 5 1
        (some (validate_resource_collection ValidationConfig.default 5 1
          (some ⟨5, 0, 0, 10, 0⟩)).2)).2.suspicious_activity_count = 2 := by
  have hr : (validate_resource_collection ValidationConfig.default 5 1
      (some ⟨5, 0, 0, 10, 0⟩)).1 = ValidationResult.RateLimited := by
    norm_num [validate_resource_collection, apsAfter, ValidationConfig.default]
  have h := c9_ratelimited_frame ValidationConfig.default 5 1
    (some ⟨5, 0, 0, 10, 0⟩) hr
  refine ⟨h.1, h.2.1, ?_, h.2.2.2.2.1, h.2.2.2.2.2⟩
  rw [h.2.2.1]
  norm_num [apsAfter]

/-- Claim C1, counterexample to the claim as stated: a player at the
suspicion threshold (10) making a valid-amount call that trips the
actions-per-second check receives RateLimited, not Flagged — the rate check
returns before the flag check is reached, so Flagged does not override
RateLimited. -/
theorem c1_ratelimit_precedence_cex :
    (500 : ℚ) ≤ ValidationConfig.default.max_resource_gain_per_action ∧
    ValidationConfig.default.suspicious_threshold ≤
      (⟨1000, 0, 0, 10, 10⟩ : PlayerActionHistory).suspicious_activity_count ∧
    (validate_resource_collection ValidationConfig.default 1000 500
        (some ⟨1000, 0, 0, 10, 10⟩)).1 = ValidationResult.RateLimited ∧
    (validate_resource_collection ValidationConfig.default 1000 500
        (some ⟨1000, 0, 0, 10, 10⟩)).1 ≠ ValidationResult.Flagged := by
  have hres : (validate_resource_collection ValidationConfig.default 1000 500
      (some ⟨1000, 0, 0, 10, 10⟩)).1 = ValidationResult.RateLimited := by
    norm_num [validate_resource_collection, apsAfter, ValidationConfig.default]
  refine ⟨by norm_num [ValidationConfig.default], by decide, hres, ?_⟩
  rw [hres]
  decide

/-- Claim C1, amended: once a player's suspicion has reached the threshold
and until a reset, a valid-amount resource call never returns Approved: it
returns Flagged whenever the decaying actions-per-second counter stays
within `max_actions_per_second`, but when the counter exceeds the cap the
RateLimited outcome takes precedence over Flagged. -/
theorem c1_flagged_until_reset (cfg : ValidationConfig) (now : Nat)
    (amount : ℚ) (h0 : Option PlayerActionHistory)
    (hamt : amount ≤ cfg.max_resource_gain_per_action)
    (hsusp : cfg.suspicious_threshold ≤
      (h0.getD freshHistory).suspicious_activity_count) :
    (apsAfter now (h0.getD freshHistory) ≤ cfg.max_actions_per_second →
      (validate_resource_collection cfg now amount h0).1 =
        ValidationResult.Flagged) ∧
    (cfg.max_actions_per_second < apsAfter now (h0.getD freshHistory) →
      (validate_resource_collection cfg now amount h0).1 =
        ValidationResult.RateLimited) ∧
    (validate_resource_collection cfg now amount h0).1 ≠
      ValidationResult.Approved := by
  have hamt' : ¬ cfg.max_resource_gain_per_action < amount := not_lt.mpr hamt
  refine ⟨fun hle => ?_, fun hlt => ?_, ?_⟩
  · rw [vrc_pass_eq cfg now amount h0 hamt' (not_lt.mpr hle)]
    simp [hsusp]
  · rw [vrc_ratelimited_eq cfg now amount h0 hamt' hlt]
  · rcases le_or_lt (apsAfter now (h0.getD freshHistory))
      cfg.max_actions_per_second with hle | hlt
    · rw [vrc_pass_eq cfg now amount h0 hamt' (not_lt.mpr hle)]
      simp [hsusp]
    · rw [vrc_ratelimited_eq cfg now amount h0 hamt' hlt]
      simp

/-- Claim C1 witness: a player at the default threshold 10 whose counter is
calm makes a valid 500.0 collection and is Flagged, not Approved. -/
theorem c1_witness :
    (validate_resource_collection ValidationConfig.default 100 500
        (some ⟨5, 0, 0, 1, 10⟩)).1 = ValidationResult.Flagged ∧
    (validate_resource_collection ValidationConfig.default 100 500
        (some ⟨5, 0, 0, 1, 10⟩)).1 ≠ ValidationResult.Approved := by
  have h := c1_flagged_until_reset ValidationConfig.default 100 500
    (some ⟨5, 0, 0, 1, 10⟩)
    (by norm_num [ValidationConfig.default])
    (by simp [ValidationConfig.default])
  exact ⟨h.1 (by norm_num [apsAfter, ValidationConfig.default]), h.2.2⟩

/-- Claim C2: for a tracked peer, every attempt first restarts the window
(count back to 0) once at least one second has elapsed, then rejects without
counting iff the count has already reached `max_packets_per_second` and
otherwise counts and accepts; consequently, from a fresh window the first
`max` in-window sends are accepted, the `(max+1)`-th is rejected and never
counted, and after the window elapses the next send is accepted again. -/
theorem c2_rate_limit_window (mx k : ℕ) (t0 now : ℚ) (ts : List ℚ) :
    (t0 ≤ now →
      checkRateLimitTracked now ⟨k, t0, mx⟩ =
        if 1 ≤ now - t0 then
          (if mx = 0 then (false, ⟨0, now, mx⟩) else (true, ⟨1, now, mx⟩))
        else if mx ≤ k then (false, ⟨k, t0, mx⟩)
        else (true, ⟨k + 1, t0, mx⟩)) ∧
    (ts.length = mx + 1 → (∀ t ∈ ts, t0 ≤ t ∧ t < t0 + 1) →
      sendSeq ts ⟨0, t0, mx⟩ =
        (List.replicate mx true ++ [false], ⟨mx, t0, mx⟩)) ∧
    (t0 + 1 ≤ now → 0 < mx →
      checkRateLimitTracked now ⟨mx, t0, mx⟩ = (true, ⟨1, now, mx⟩)) := by
  refine ⟨fun hle => ?_, fun hlen hts => ?_, fun hel hmx => ?_⟩
  · by_cases hd : 1 ≤ now - t0
    · rw [checkRateLimitTracked_reset mx k t0 now (by linarith), if_pos hd]
    · rw [checkRateLimitTracked_in_window mx k t0 now hle (by linarith), if_neg hd]
  · rw [sendSeq_window mx t0 ts 0 (Nat.zero_le mx) hts, hlen]
    have hsplit : List.range' 0 (mx + 1) = List.range' 0 mx ++ [mx] := by
      rw [← List.range_eq_range', ← List.range_eq_range', List.range_succ]
    have hmap : (List.range' 0 mx).map (fun i => decide (i < mx)) =
        List.replicate mx true := by
      have := map_range'_decide_lt 0 mx
      simpa using this
    rw [hsplit, List.map_append, hmap]
    simp
  · rw [checkRateLimitTracked_reset mx mx t0 now hel,
      if_neg (Nat.pos_iff_ne_zero.mp hmx)]

/-- Claim C2 witness: cap 2, fresh window opened at time 0; sends at times
0, 1/4 and 1/2 give accept, accept, reject with the count stuck at 2, and a
send at time 1 is accepted into a new window. -/
theorem c2_witness :
    checkRateLimitTracked (1/4) ⟨1, 0, 2⟩ = (true, ⟨2, 0, 2⟩) ∧
    sendSeq [0, 1/4, 1/2] ⟨0, 0, 2⟩ = ([true, true, false], ⟨2, 0, 2⟩) ∧
    checkRateLimitTracked 1 ⟨2, 0, 2⟩ = (true, ⟨1, 1, 2⟩) := by
  have hmem : ∀ t ∈ [(0 : ℚ), 1/4, 1/2], (0 : ℚ) ≤ t ∧ t < 0 + 1 := by
    intro t ht
    simp only [List.mem_cons, List.not_mem_nil, or_false] at ht
    rcases ht with h | h | h <;> subst h <;> norm_num
  refine ⟨?_, ?_, ?_⟩
  · have h := (c2_rate_limit_window 2 1 0 (1/4) []).1 (by norm_num)
    rw [h]
    norm_num
  · have h := (c2_rate_limit_window 2 0 0 0 [0, 1/4, 1/2]).2.1 rfl hmem
    simpa using h
  · exact (c2_rate_limit_window 2 0 0 1 []).2.2 (by norm_num) (by norm_num)

/-- Claim C4, counterexample to the claim as stated: the round-trip is not
the identity on every payload. A short payload that itself begins with the
gzip magic header and decompresses successfully is misidentified on
receive: compression passes it through unchanged (length ≤ 100), but the
receive side decompresses it into different bytes. This holds for any codec
satisfying the gzip interface; under real gzip the 20-byte gzip encoding of
the empty payload is such an input. -/
theorem c4_roundtrip_cex :
    compressForSend toyGzip true [0x1f, 0x8b, 0, 0, 0] = [0x1f, 0x8b, 0, 0, 0] ∧
    decompressOnReceive toyGzip true
        (compressForSend toyGzip true [0x1f, 0x8b, 0, 0, 0]) ≠
      [0x1f, 0x8b, 0, 0, 0] := by
  constructor
  · rfl
  · decide

/-- Claim C4, amended: `decompress(compress(x)) = x` for every payload that
the receive heuristic cannot misidentify — any `x` longer than 100 bytes
(the compressed path always round-trips), and any shorter `x` that has at
most 4 bytes, or does not begin with the 2-byte gzip magic header, or fails
decompression (the failure falls back to the original bytes). A raw
payload of 5 to 100 bytes that is itself a decompressible gzip stream is
transformed instead. -/
theorem c4_compress_roundtrip (G : GzipCodec) (x : List Byte)
    (hx : x.length ≤ 4 ∨ x.take 2 ≠ gzipMagic ∨
      (∃ e, G.decompress_data x = Except.error e) ∨ 100 < x.length) :
    decompressOnReceive G true (compressForSend G true x) = x := by
  rcases Nat.lt_or_ge 100 x.length with hlong | hshort
  · rw [compressForSend, if_pos ⟨rfl, hlong⟩]
    simp [decompressOnReceive, G.compress_len x, G.compress_magic x,
      G.decompress_compress x]
  · have hcomp : compressForSend G true x = x := by
      rw [compressForSend, if_neg]
      rintro ⟨-, h⟩
      omega
    rw [hcomp]
    rcases hx with h4 | hmag | ⟨e, herr⟩ | hlong
    · rw [decompressOnReceive, if_neg]
      rintro ⟨-, h⟩
      omega
    · by_cases h4 : 4 < x.length <;>
        simp [decompressOnReceive, hmag, h4]
    · by_cases h4 : 4 < x.length <;>
        by_cases hm : x.take 2 = gzipMagic <;>
        simp [decompressOnReceive, h4, hm, herr]
    · omega

/-- Claim C4 witness: the round-trip is the identity on concrete payloads of
length 0 (at most 4 bytes), 99 and 100 (no magic header) and 101 (compressed
path), instantiated with the concrete codec. -/
theorem c4_witness :
    decompressOnReceive toyGzip true (compressForSend toyGzip true []) = [] ∧
    decompressOnReceive toyGzip true
        (compressForSend toyGzip true (List.replicate 99 7)) =
      List.replicate 99 7 ∧
    decompressOnReceive toyGzip true
        (compressForSend toyGzip true (List.replicate 100 7)) =
      List.replicate 100 7 ∧
    decompressOnReceive toyGzip true
        (compressForSend toyGzip true (List.replicate 101 7)) =
      List.replicate 101 7 :=
  ⟨c4_compress_roundtrip toyGzip [] (Or.inl (by simp)),
   c4_compress_roundtrip toyGzip (List.replicate 99 7)
     (Or.inr (Or.inl (by decide))),
   c4_compress_roundtrip toyGzip (List.replicate 100 7)
     (Or.inr (Or.inl (by decide))),
   c4_compress_roundtrip toyGzip (List.replicate 101 7)
     (Or.inr (Or.inr (Or.inr (by simp))))⟩

/-- Claim C10: a peer with no rate-limit entry always passes the rate
check: `send_packet` to it never fails with the rate-limit error and
creates no rate-limit entry; any failure is the peer lookup or the
uninitialized host. -/
theorem c10_untracked_peer_never_ratelimited (G : GzipCodec)
    (nm : NetworkManager) (now : ℚ) (peer : Nat) (data : List Byte)
    (reliable : Bool)
    (hun : lookupPeer peer nm.peer_rate_limits = none) :
    (send_packet G nm now peer data reliable).1 ≠
      Except.error "Rate limit exceeded" ∧
    (send_packet G nm now peer data reliable).2.peer_rate_limits =
      nm.peer_rate_limits ∧
    (∀ e, (send_packet G nm now peer data reliable).1 = Except.error e →
      e = "Peer not found" ∨ e = "Network not initialized") := by
  have hc : NetworkManager.check_rate_limit nm now peer = (true, nm) := by
    simp [NetworkManager.check_rate_limit, hun]
  rcases hhost : nm.host with _ | peers
  · simp [send_packet, hc, hhost]
  · by_cases hmem : peer ∈ peers <;> simp [send_packet, hc, hhost, hmem]

/-- Claim C10 witness: a manager that tracks no rate limits but whose host
knows peer 7 sends to peer 7 without any rate-limit rejection and still
tracks no rate limits afterwards. -/
theorem c10_witness :
    (send_packet toyGzip ⟨some [7], [], true, ⟨0, 0, 0, 0, 0⟩⟩ 0 7 []
        false).1 ≠ Except.error "Rate limit exceeded" ∧
    (send_packet toyGzip ⟨some [7], [], true, ⟨0, 0, 0, 0, 0⟩⟩ 0 7 []
        false).2.peer_rate_limits = [] := by
  have h := c10_untracked_peer_never_ratelimited toyGzip
    ⟨some [7], [], true, ⟨0, 0, 0, 0, 0⟩⟩ 0 7 [] false rfl
  exact ⟨h.1, h.2.1⟩

end ChainQuest
